import Mathlib

/-!
Shallow embedding of the rock-paper-scissors repository (src/lib.rs and
src/main.rs) together with proofs about the claims of its specification.

Machine integers: the Rust code stores points and the round counter in `u8`.
They are modelled as `Nat`, with every increment taken modulo `2^8 = 256`
where the source performs `u8` arithmetic, so that wraparound behaviour is
reflected faithfully.
-/

/-- The `Winner` enum of src/lib.rs (also redeclared identically in src/main.rs). -/
inductive Winner where
  | Human
  | Computer
  | Draw
deriving DecidableEq, Repr

/-- The `Choice` enum of src/lib.rs (also redeclared identically in src/main.rs). -/
inductive Choice where
  | Rock
  | Paper
  | Scissors
deriving DecidableEq, Repr

/-- The `BestOf(u8)` tuple struct of src/lib.rs; the `u8` payload is a `Nat`. -/
structure BestOf where
  val : Nat
deriving DecidableEq, Repr

/-- The function `BestOf::new` (src/lib.rs lines 33-39):
`if (number % 2 != 0) && (number > 2) { Ok(..) } else { Err(..) }`. -/
def BestOf.new (number : Nat) : Except String BestOf :=
  if number % 2 ≠ 0 ∧ number > 2 then
    Except.ok ⟨number⟩
  else
    Except.error "Number must be odd and greater than 2"

/-- The `Default` impl for `BestOf` (src/lib.rs lines 42-46): `Self(5)`. -/
def BestOf.default : BestOf := ⟨5⟩

/-- Rust integer parsing drops one optional leading `+` sign; a `-` sign on
an unsigned type is never accepted (it is not a digit, so the digit check
below fails). -/
def stripPlus (cs : List Char) : List Char :=
  match cs with
  | '+' :: rest => rest
  | cs => cs

/-- Numeric value of a run of ASCII decimal digits. -/
def digitsVal (ds : List Char) : Nat :=
  ds.foldl (fun a c => a * 10 + (c.toNat - 48)) 0

/-- Rust `str::parse::<u8>`: an optional leading `+` followed by a nonempty
run of ASCII decimal digits whose value fits in `u8` (≤ 255); anything else,
including a `-` sign, the empty string, or an out-of-range value, fails. -/
def rustParseU8 (s : String) : Option Nat :=
  if stripPlus s.data ≠ [] ∧ (stripPlus s.data).all Char.isDigit then
    if digitsVal (stripPlus s.data) ≤ 255 then some (digitsVal (stripPlus s.data))
    else none
  else none

/-- The `FromStr` impl for `BestOf` (src/lib.rs lines 48-57): parse as `u8`, then
validate through `BestOf::new`; a parse failure yields its own error text. -/
def BestOf.from_str (s : String) : Except String BestOf :=
  match rustParseU8 s with
  | some value => BestOf.new value
  | none => Except.error "Could not parse number"

/-- The `Game` struct of src/lib.rs (lines 59-65); `u8` fields become `Nat`. -/
structure Game where
  human_points : Nat
  computer_points : Nat
  round : Nat
  best_of : BestOf
deriving DecidableEq, Repr

/-- The function `Game::new` (src/lib.rs lines 68-78). -/
def Game.new (best_of : Option BestOf) : Game :=
  { human_points := 0
  , computer_points := 0
  , round := 1
  , best_of :=
      match best_of with
      | some value => value
      | none => BestOf.default }

/-- The function `Game::add_point` (src/lib.rs lines 80-86); the `u8` increment wraps
modulo 256. -/
def Game.add_point (g : Game) (player : Winner) : Game :=
  match player with
  | Winner.Human => { g with human_points := (g.human_points + 1) % 256 }
  | Winner.Computer => { g with computer_points := (g.computer_points + 1) % 256 }
  | Winner.Draw => g

/-- The function `Game::increase_round` (src/lib.rs lines 92-94); the `u8` increment wraps
modulo 256. -/
def Game.increase_round (g : Game) : Game :=
  { g with round := (g.round + 1) % 256 }

/-- The `impl PartialOrd for Choice` of src/lib.rs (lines 180-192): six
explicit arms, and the wildcard arm returns `Some(Ordering::Equal)`. -/
def Choice.partial_cmp (a other : Choice) : Option Ordering :=
  match a, other with
  | Choice.Rock, Choice.Paper => some Ordering.lt
  | Choice.Rock, Choice.Scissors => some Ordering.gt
  | Choice.Paper, Choice.Rock => some Ordering.gt
  | Choice.Paper, Choice.Scissors => some Ordering.lt
  | Choice.Scissors, Choice.Paper => some Ordering.gt
  | Choice.Scissors, Choice.Rock => some Ordering.lt
  | _, _ => some Ordering.eq

/-- The function `Game::round_winner` (src/lib.rs lines 108-115): `partial_cmp` then
`unwrap`; the `none` arm models the unwrap failure path (proved unreachable
below). -/
def Game.round_winner (_ : Game) (human_choice computer_choice : Choice) : Winner :=
  match human_choice.partial_cmp computer_choice with
  | some Ordering.gt => Winner.Human
  | some Ordering.lt => Winner.Computer
  | some Ordering.eq => Winner.Draw
  | none => Winner.Draw

/-- The function `Game::game_winner` (src/lib.rs lines 117-125). -/
def Game.game_winner (g : Game) : Winner :=
  if g.computer_points > g.human_points then
    Winner.Computer
  else if g.computer_points < g.human_points then
    Winner.Human
  else
    Winner.Draw

/-- The function `Game::enough_points_to_end_game` (src/lib.rs lines 127-133):
`minimum_round = best_of/2 + 1`, then `(human == m) | (computer == m)`. -/
def Game.enough_points_to_end_game (g : Game) : Bool :=
  let minimum_round := g.best_of.val / 2 + 1
  if (g.human_points == minimum_round) || (g.computer_points == minimum_round) then
    true
  else
    false

/-- Rust `String::to_lowercase` restricted to the ASCII range, which covers
every string the `Choice` parser can accept: each character is lowercased
independently. -/
def rust_to_lowercase (s : String) : String :=
  ⟨s.data.map Char.toLower⟩

/-- The `TryFrom<String>` impl for `Choice` (src/lib.rs lines 153-164): lowercase, then
match against the six literal patterns, each of which carries a trailing
newline. -/
def Choice.try_from (value : String) : Except String Choice :=
  let lv := rust_to_lowercase value
  if lv = "rock\n" ∨ lv = "r\n" then Except.ok Choice.Rock
  else if lv = "paper\n" ∨ lv = "p\n" then Except.ok Choice.Paper
  else if lv = "scissors\n" ∨ lv = "s\n" then Except.ok Choice.Scissors
  else Except.error "Unknown choice"

/-- One round of bookkeeping as the claims describe it: one `add_point` call
followed by one `increase_round` call, folded over a list of outcomes. -/
def Game.play (g : Game) (outcomes : List Winner) : Game :=
  outcomes.foldl (fun st w => (st.add_point w).increase_round) g

namespace MainSrc

/-- The `BestOf` enum of src/main.rs (lines 100-105): only `Three`, `Five`,
`Seven`. -/
inductive BestOf where
  | Three
  | Five
  | Seven
deriving DecidableEq, Repr

/-- The `Game` struct of src/main.rs (lines 126-131). -/
structure Game where
  human_points : Nat
  computer_points : Nat
  round : Nat
  best_of : MainSrc.BestOf
deriving DecidableEq, Repr

/-- The `impl PartialOrd for Choice` of src/main.rs (lines 238-250), embedded
separately from the lib.rs copy so the two can be compared. -/
def partial_cmp (a other : Choice) : Option Ordering :=
  match a, other with
  | Choice.Rock, Choice.Paper => some Ordering.lt
  | Choice.Rock, Choice.Scissors => some Ordering.gt
  | Choice.Paper, Choice.Rock => some Ordering.gt
  | Choice.Paper, Choice.Scissors => some Ordering.lt
  | Choice.Scissors, Choice.Paper => some Ordering.gt
  | Choice.Scissors, Choice.Rock => some Ordering.lt
  | _, _ => some Ordering.eq

/-- The function `Game::round_winner` of src/main.rs (lines 174-181). -/
def Game.round_winner (_ : MainSrc.Game) (human_choice computer_choice : Choice) : Winner :=
  match MainSrc.partial_cmp human_choice computer_choice with
  | some Ordering.gt => Winner.Human
  | some Ordering.lt => Winner.Computer
  | some Ordering.eq => Winner.Draw
  | none => Winner.Draw

/-- The function `Game::game_winner` of src/main.rs (lines 183-191). -/
def Game.game_winner (g : MainSrc.Game) : Winner :=
  if g.computer_points > g.human_points then
    Winner.Computer
  else if g.computer_points < g.human_points then
    Winner.Human
  else
    Winner.Draw

end MainSrc

/-- Boolean success test for a `Result`/`Except` value, used to state the
claims about the fallible constructors. -/
def exceptIsOk {α : Type} : Except String α → Bool
  | Except.ok _ => true
  | Except.error _ => false

/-! Helper lemmas shared by the proofs below. -/

/-- Unfolding lemma: playing one outcome then the rest. -/
lemma Game.play_cons (g : Game) (w : Winner) (os : List Winner) :
    Game.play g (w :: os) = Game.play ((g.add_point w).increase_round) os := rfl

/-- Each recorded round adds at most one point in total, even with the `u8`
wraparound of the score counters. -/
lemma Game.play_points_le (os : List Winner) :
    ∀ g : Game,
      (Game.play g os).human_points + (Game.play g os).computer_points ≤
        g.human_points + g.computer_points + os.length := by
  induction os with
  | nil => intro g; simp [Game.play]
  | cons w os ih =>
    intro g
    have h := ih ((g.add_point w).increase_round)
    rw [Game.play_cons]
    have hstep : ((g.add_point w).increase_round).human_points +
        ((g.add_point w).increase_round).computer_points ≤
        g.human_points + g.computer_points + 1 := by
      cases w <;> simp [Game.add_point, Game.increase_round] <;> omega
    simp only [List.length_cons]
    omega

/-- The round counter after a sequence of rounds, as a `u8`: it is the
initial value plus the number of rounds, modulo 256. -/
lemma Game.play_round_mod (os : List Winner) :
    ∀ g : Game, g.round < 256 →
      (Game.play g os).round = (g.round + os.length) % 256 := by
  induction os with
  | nil =>
    intro g hg
    simp [Game.play, Nat.mod_eq_of_lt hg]
  | cons w os ih =>
    intro g hg
    rw [Game.play_cons]
    have hr : ((g.add_point w).increase_round).round = (g.round + 1) % 256 := by
      cases w <;> rfl
    have h2 : ((g.add_point w).increase_round).round < 256 := by
      rw [hr]; omega
    rw [ih _ h2, hr]
    simp only [List.length_cons]
    omega

/-- Claim C1, counterexample: the claim asserts that the newline-free inputs
"Paper" and "s" are accepted, but `Choice::try_from` rejects both, because
every accepted pattern carries a mandatory trailing newline. -/
theorem try_from_counterexample :
    Choice.try_from "Paper" = Except.error "Unknown choice"
    ∧ Choice.try_from "s" = Except.error "Unknown choice" := ⟨rfl, rfl⟩

/-- Claim C1 (amended): after case folding, `Choice::try_from` accepts
exactly the six strings "rock\n", "r\n", "paper\n", "p\n", "scissors\n",
"s\n" — each with a mandatory trailing newline — returning the
corresponding `Choice`; it accepts "ROCK\n" and "r\n", and rejects the
newline-free "Paper" and "s" as well as "lizard", "", "rock paper". -/
theorem try_from_spec :
    (∀ v : String,
      (Choice.try_from v = Except.ok Choice.Rock ↔
        (rust_to_lowercase v = "rock\n" ∨ rust_to_lowercase v = "r\n"))
      ∧ (Choice.try_from v = Except.ok Choice.Paper ↔
        (rust_to_lowercase v = "paper\n" ∨ rust_to_lowercase v = "p\n"))
      ∧ (Choice.try_from v = Except.ok Choice.Scissors ↔
        (rust_to_lowercase v = "scissors\n" ∨ rust_to_lowercase v = "s\n")))
    ∧ Choice.try_from "ROCK\n" = Except.ok Choice.Rock
    ∧ Choice.try_from "r\n" = Except.ok Choice.Rock
    ∧ Choice.try_from "Paper\n" = Except.ok Choice.Paper
    ∧ Choice.try_from "s\n" = Except.ok Choice.Scissors
    ∧ Choice.try_from "lizard\n" = Except.error "Unknown choice"
    ∧ Choice.try_from "lizard" = Except.error "Unknown choice"
    ∧ Choice.try_from "" = Except.error "Unknown choice"
    ∧ Choice.try_from "rock paper" = Except.error "Unknown choice" := by
  refine ⟨?_, rfl, rfl, rfl, rfl, rfl, rfl, rfl, rfl⟩
  intro v
  unfold Choice.try_from
  generalize rust_to_lowercase v = lv
  dsimp only
  split_ifs with h1 h2 h3
  · refine ⟨by simp [h1], ?_, ?_⟩ <;>
      rcases h1 with h | h <;> subst h <;> simp
  · refine ⟨?_, by simp [h2], ?_⟩ <;>
      rcases h2 with h | h <;> subst h <;> simp
  · refine ⟨?_, ?_, by simp [h3]⟩ <;>
      rcases h3 with h | h <;> subst h <;> simp
  · refine ⟨?_, ?_, ?_⟩ <;> simp_all

/-- Claim C2, counterexample: the claim asserts the check is true whenever a
score has reached at least the majority threshold, but with best-of-5 and a
human score of 4 (threshold 3) the source's equality test returns false. -/
theorem enough_points_counterexample :
    Game.enough_points_to_end_game ⟨4, 0, 5, ⟨5⟩⟩ = false
    ∧ (4 : Nat) ≥ ((5 : Nat) + 1) / 2 := ⟨rfl, by decide⟩

/-- Claim C2 (amended): `enough_points_to_end_game` returns true if and only
if one side's score is exactly equal to `floor(bestOf/2) + 1` (which equals
`(bestOf+1)/2` for odd `bestOf`); for best-of-5 it is true exactly when
either score equals 3, and false while both scores are at most 2. -/
theorem enough_points_iff_eq_threshold :
    ∀ g : Game,
      (g.enough_points_to_end_game = true ↔
        (g.human_points = g.best_of.val / 2 + 1 ∨ g.computer_points = g.best_of.val / 2 + 1))
      ∧ (g.best_of.val % 2 = 1 → g.best_of.val / 2 + 1 = (g.best_of.val + 1) / 2)
      ∧ (g.best_of.val = 5 →
          (g.enough_points_to_end_game = true ↔ (g.human_points = 3 ∨ g.computer_points = 3)))
      ∧ (g.best_of.val = 5 → g.human_points ≤ 2 → g.computer_points ≤ 2 →
          g.enough_points_to_end_game = false) := by
  intro g
  have hiff : g.enough_points_to_end_game = true ↔
      (g.human_points = g.best_of.val / 2 + 1 ∨ g.computer_points = g.best_of.val / 2 + 1) := by
    simp [Game.enough_points_to_end_game]
  refine ⟨hiff, fun h => by omega, fun h5 => ?_, fun h5 hh hc => ?_⟩
  · rw [hiff, h5]
  · have h3 : ¬(g.human_points = g.best_of.val / 2 + 1
        ∨ g.computer_points = g.best_of.val / 2 + 1) := by
      rw [h5]; omega
    cases hb : g.enough_points_to_end_game
    · rfl
    · exact absurd (hiff.mp hb) h3

/-- Claim C2, witness: a best-of-5 game in which the human holds exactly 3
points satisfies the amended termination condition. -/
theorem enough_points_iff_eq_threshold_witness :
    Game.enough_points_to_end_game ⟨3, 0, 4, ⟨5⟩⟩ = true :=
  ((enough_points_iff_eq_threshold ⟨3, 0, 4, ⟨5⟩⟩).1).mpr (Or.inl rfl)

/-- Claim C3: `BestOf::new n` succeeds if and only if `n` is odd and greater
than 2; it fails for 1, 2, 4, 6, succeeds for 3, 5, 7, and on failure it
returns the validation error value rather than diverging. -/
theorem bestOf_new_ok_iff :
    (∀ n : Nat, n < 256 →
      ((exceptIsOk (BestOf.new n) = true) ↔ (n % 2 ≠ 0 ∧ 2 < n))
      ∧ (¬ (n % 2 ≠ 0 ∧ 2 < n) →
          BestOf.new n = Except.error "Number must be odd and greater than 2"))
    ∧ exceptIsOk (BestOf.new 1) = false
    ∧ exceptIsOk (BestOf.new 2) = false
    ∧ exceptIsOk (BestOf.new 4) = false
    ∧ exceptIsOk (BestOf.new 6) = false
    ∧ exceptIsOk (BestOf.new 3) = true
    ∧ exceptIsOk (BestOf.new 5) = true
    ∧ exceptIsOk (BestOf.new 7) = true := by
  refine ⟨?_, rfl, rfl, rfl, rfl, rfl, rfl, rfl⟩
  intro n _
  unfold BestOf.new
  split_ifs with h
  · simp [exceptIsOk, h]
  · simp [exceptIsOk, h]
    omega

/-- Claim C3, witness: the validator accepts the odd value 9. -/
theorem bestOf_new_ok_iff_witness : exceptIsOk (BestOf.new 9) = true :=
  ((bestOf_new_ok_iff.1 9 (by decide)).1).mpr (by decide)

/-- Claim C4: the comparison is reflexive-equal and antisymmetric — equal
choices compare `Equal` both ways (so the round is a draw), and for distinct
choices `partial_cmp a b = Greater` exactly when `partial_cmp b a = Less`
(so the human wins `(a, b)` exactly when the computer wins `(b, a)`). -/
theorem choice_cmp_antisymmetric :
    ∀ (g : Game) (a b : Choice),
      (a = b →
        Choice.partial_cmp a b = some Ordering.eq
        ∧ Choice.partial_cmp b a = some Ordering.eq
        ∧ Game.round_winner g a b = Winner.Draw)
      ∧ (a ≠ b →
        ((Choice.partial_cmp a b = some Ordering.gt ↔ Choice.partial_cmp b a = some Ordering.lt)
          ∧ (Game.round_winner g a b = Winner.Human ↔ Game.round_winner g b a = Winner.Computer))) := by
  intro g a b
  cases a <;> cases b <;>
    simp [Choice.partial_cmp, Game.round_winner]

/-- Claim C4, witness: since the human wins (Rock, Scissors), the computer
wins the swapped pair (Scissors, Rock). -/
theorem choice_cmp_antisymmetric_witness :
    Game.round_winner (Game.new none) Choice.Scissors Choice.Rock = Winner.Computer :=
  (((choice_cmp_antisymmetric (Game.new none) Choice.Rock Choice.Scissors).2
      (by decide)).2).mp rfl

/-- Claim C5: the dominance relation is exactly the fixed cycle Rock beats
Scissors, Scissors beats Paper, Paper beats Rock — the human wins precisely
on those three ordered pairs, the computer precisely on their reverses, and
Rock does not beat Paper, so the relation is not transitive. -/
theorem choice_cycle :
    ∀ (g : Game) (a b : Choice),
      (Game.round_winner g a b = Winner.Human ↔
        ((a = Choice.Rock ∧ b = Choice.Scissors)
          ∨ (a = Choice.Scissors ∧ b = Choice.Paper)
          ∨ (a = Choice.Paper ∧ b = Choice.Rock)))
      ∧ (Game.round_winner g a b = Winner.Computer ↔
        ((b = Choice.Rock ∧ a = Choice.Scissors)
          ∨ (b = Choice.Scissors ∧ a = Choice.Paper)
          ∨ (b = Choice.Paper ∧ a = Choice.Rock)))
      ∧ Game.round_winner g Choice.Rock Choice.Scissors = Winner.Human
      ∧ Game.round_winner g Choice.Scissors Choice.Paper = Winner.Human
      ∧ Game.round_winner g Choice.Rock Choice.Paper ≠ Winner.Human := by
  intro g a b
  cases a <;> cases b <;>
    simp [Game.round_winner, Choice.partial_cmp]

/-- Claim C5, witness: Rock beats Scissors in a concrete game. -/
theorem choice_cycle_witness :
    Game.round_winner (Game.new none) Choice.Rock Choice.Scissors = Winner.Human :=
  (choice_cycle (Game.new none) Choice.Rock Choice.Scissors).2.2.1

set_option maxRecDepth 4096 in
/-- Claim C6, counterexample: the claim asserts `round = 1 + k` for every
sequence of `k` outcomes, but after 255 recorded rounds the `u8` round
counter wraps to 0 instead of reaching 256. -/
theorem game_play_round_overflow :
    (Game.play (Game.new none) (List.replicate 255 Winner.Draw)).round = 0
    ∧ (Game.play (Game.new none) (List.replicate 255 Winner.Draw)).round
        ≠ 1 + (List.replicate 255 Winner.Draw).length := by
  refine ⟨rfl, ?_⟩
  rw [show (Game.play (Game.new none) (List.replicate 255 Winner.Draw)).round = 0 from rfl]
  simp

/-- Claim C6 (amended): for every sequence of `k` outcomes applied to a
fresh game (each round one `add_point` then one `increase_round`), the
scores satisfy `human_points + computer_points ≤ k`, and `round = 1 + k`
provided `k ≤ 254` (beyond that the `u8` round counter wraps); a Draw
changes neither score, and a Human or Computer outcome adds exactly 1 to
the corresponding side's score only, provided that score is below 255. -/
theorem game_play_invariants (os : List Winner) :
    (Game.play (Game.new none) os).human_points
        + (Game.play (Game.new none) os).computer_points ≤ os.length
    ∧ (os.length ≤ 254 → (Game.play (Game.new none) os).round = 1 + os.length)
    ∧ (∀ g : Game, g.add_point Winner.Draw = g)
    ∧ (∀ g : Game, g.human_points ≤ 254 →
        ((g.add_point Winner.Human).human_points = g.human_points + 1
          ∧ (g.add_point Winner.Human).computer_points = g.computer_points))
    ∧ (∀ g : Game, g.computer_points ≤ 254 →
        ((g.add_point Winner.Computer).computer_points = g.computer_points + 1
          ∧ (g.add_point Winner.Computer).human_points = g.human_points)) := by
  refine ⟨?_, ?_, fun g => rfl, ?_, ?_⟩
  · have h := Game.play_points_le os (Game.new none)
    simpa [Game.new, BestOf.default] using h
  · intro hlen
    have h := Game.play_round_mod os (Game.new none) (by decide)
    rw [h]
    show (1 + os.length) % 256 = 1 + os.length
    omega
  · intro g h
    constructor
    · show (g.human_points + 1) % 256 = g.human_points + 1
      omega
    · rfl
  · intro g h
    constructor
    · show (g.computer_points + 1) % 256 = g.computer_points + 1
      omega
    · rfl

/-- Claim C6, witness: after the three outcomes Human, Draw, Computer the
round counter reads 1 + 3. -/
theorem game_play_invariants_witness :
    (Game.play (Game.new none) [Winner.Human, Winner.Draw, Winner.Computer]).round
      = 1 + (List.length [Winner.Human, Winner.Draw, Winner.Computer]) :=
  (game_play_invariants [Winner.Human, Winner.Draw, Winner.Computer]).2.1 (by decide)

/-- Claim C7: `game_winner` returns Human exactly when the human has more
points, Computer exactly when the computer has more, and Draw exactly when
the two totals are equal — a generic comparison with no oddness assumption. -/
theorem game_winner_spec :
    ∀ g : Game,
      (g.game_winner = Winner.Human ↔ g.computer_points < g.human_points)
      ∧ (g.game_winner = Winner.Computer ↔ g.human_points < g.computer_points)
      ∧ (g.game_winner = Winner.Draw ↔ g.human_points = g.computer_points) := by
  intro g
  unfold Game.game_winner
  split_ifs with h1 h2 <;> refine ⟨?_, ?_, ?_⟩ <;> simp <;> omega

/-- Claim C8: `partial_cmp` returns `Some` ordering for every pair of
choices, so the `unwrap` inside `round_winner` never fails and
`round_winner` yields a winner determined by that ordering for all nine
input pairs. -/
theorem round_winner_total :
    ∀ a b : Choice, ∃ o : Ordering,
      Choice.partial_cmp a b = some o
      ∧ ∀ g : Game, Game.round_winner g a b =
          (match o with
            | Ordering.gt => Winner.Human
            | Ordering.lt => Winner.Computer
            | Ordering.eq => Winner.Draw) := by
  intro a b
  cases a <;> cases b <;> exact ⟨_, rfl, fun g => rfl⟩

/-- Claim C9: `BestOf::from_str` succeeds exactly on strings that parse as a
`u8` (hence a value at most 255) that is odd and greater than 2; parse
failures such as "257" or "abc" get the parse error, values failing
validation get the distinct validation error, so the accepted round counts
are exactly the odd integers from 3 to 255. -/
theorem bestOf_from_str_spec :
    (∀ s : String,
      ((exceptIsOk (BestOf.from_str s) = true) ↔
        (∃ n : Nat, rustParseU8 s = some n ∧ n % 2 ≠ 0 ∧ 2 < n))
      ∧ (rustParseU8 s = none →
          BestOf.from_str s = Except.error "Could not parse number")
      ∧ (∀ n : Nat, rustParseU8 s = some n →
          n ≤ 255 ∧ BestOf.from_str s = BestOf.new n))
    ∧ BestOf.from_str "257" = Except.error "Could not parse number"
    ∧ BestOf.from_str "abc" = Except.error "Could not parse number"
    ∧ BestOf.from_str "" = Except.error "Could not parse number"
    ∧ BestOf.from_str "-3" = Except.error "Could not parse number"
    ∧ BestOf.from_str "4" = Except.error "Number must be odd and greater than 2"
    ∧ BestOf.from_str "1" = Except.error "Number must be odd and greater than 2"
    ∧ BestOf.from_str "3" = Except.ok ⟨3⟩
    ∧ BestOf.from_str "+7" = Except.ok ⟨7⟩
    ∧ BestOf.from_str "255" = Except.ok ⟨255⟩ := by
  refine ⟨?_, rfl, rfl, rfl, rfl, rfl, rfl, rfl, rfl, rfl⟩
  intro s
  refine ⟨?_, ?_, ?_⟩
  · unfold BestOf.from_str
    cases hp : rustParseU8 s with
    | none => simp [exceptIsOk]
    | some v =>
      dsimp only
      unfold BestOf.new
      split_ifs with h
      · constructor
        · intro _
          exact ⟨v, rfl, h⟩
        · intro _
          rfl
      · constructor
        · intro hft
          simp [exceptIsOk] at hft
        · rintro ⟨n, hn, hcond⟩
          injection hn with hvn
          subst hvn
          exact absurd hcond h
  · intro h
    unfold BestOf.from_str
    rw [h]
  · intro n h
    constructor
    · unfold rustParseU8 at h
      split_ifs at h with h1 h2
      all_goals simp_all
    · unfold BestOf.from_str
      rw [h]

/-- Claim C9, witness: the string "5" is accepted. -/
theorem bestOf_from_str_spec_witness :
    exceptIsOk (BestOf.from_str "5") = true :=
  ((bestOf_from_str_spec.1 "5").1).mpr ⟨5, rfl, by decide⟩

/-- Claim C10: the binary (src/main.rs) and the library (src/lib.rs) agree
on the core logic — their `round_winner` functions coincide on all choice
pairs, and their `game_winner` functions coincide whenever the point totals
coincide. -/
theorem main_lib_agree :
    ∀ (mg : MainSrc.Game) (lg : Game) (a b : Choice),
      MainSrc.Game.round_winner mg a b = Game.round_winner lg a b
      ∧ (mg.human_points = lg.human_points → mg.computer_points = lg.computer_points →
          MainSrc.Game.game_winner mg = Game.game_winner lg) := by
  intro mg lg a b
  constructor
  · cases a <;> cases b <;> rfl
  · intro h1 h2
    unfold MainSrc.Game.game_winner Game.game_winner
    rw [h1, h2]

/-- Claim C10, witness: a concrete pair of states with equal point totals
gets the same match winner from both variants. -/
theorem main_lib_agree_witness :
    MainSrc.Game.game_winner ⟨2, 1, 4, MainSrc.BestOf.Five⟩
      = Game.game_winner ⟨2, 1, 4, ⟨5⟩⟩ :=
  (main_lib_agree ⟨2, 1, 4, MainSrc.BestOf.Five⟩ ⟨2, 1, 4, ⟨5⟩⟩
    Choice.Rock Choice.Paper).2 rfl rfl
